import Mathlib

/-!
Shallow embedding of the `mover` worker (`src/mover/worker.py`).

The mover thread body (`Worker._mover`), the watchdog loop
(`Worker._watchdog`), the lifecycle methods (`Worker.start`,
`Worker.stop`), the `property_guard` decorator, the configuration
setters, the initial-sync scan of `Worker.start` and the
empty-directory cleanup of `Worker.stop` are translated into pure Lean
functions over explicit state.  The result of each filesystem
operation (which exception, if any, `os.makedirs` or `shutil.move`
raises) is injected into the event itself, so the `try/except` ladder
of the mover body is modelled deterministically.
-/

namespace MoverWorker

/-- Result of the filesystem operation attempted for one event: which
exception, if any, `os.makedirs` (directory events) or `shutil.move`
(file events) raises when the mover processes the event. -/
inductive Outcome where
  | ok
  | fileExists
  | fileNotFound
  | permissionError
  | otherError
  deriving DecidableEq, Repr

/-- A watchdog `FileSystemEvent` as the mover consumes it: `src_path`
(kept as path components relative to the source root), `is_directory`,
plus the injected filesystem outcome. -/
structure Event where
  src_path : List String
  is_directory : Bool
  outcome : Outcome
  deriving DecidableEq, Repr

inductive LogLevel where
  | debug
  | info
  | warning
  | error
  deriving DecidableEq, Repr

structure LogEntry where
  level : LogLevel
  msg : String
  deriving DecidableEq, Repr

/-- `filename = os.path.basename(dst_path)` (worker.py line 220). -/
def filename (e : Event) : String := e.src_path.getLastD ""

/-- Python class name of the exception an `Outcome` stands for. -/
def outcomeName : Outcome → String
  | .ok => ""
  | .fileExists => "FileExistsError"
  | .fileNotFound => "FileNotFoundError"
  | .permissionError => "PermissionError"
  | .otherError => "Exception"

/-- Body of the `for event in events` loop of `Worker._mover`
(worker.py lines 215-241).  Returns the events re-enqueued by the
`except PermissionError` branch together with the log lines emitted.
Directory events: `os.makedirs` with `FileExistsError` downgraded to a
warning.  File events: `shutil.move` with `PermissionError` logged and
the event re-enqueued.  The outer handlers catch `FileNotFoundError`
and then any `Exception`; no branch escapes the loop. -/
def processEvent (e : Event) : List Event × List LogEntry :=
  if e.is_directory then
    match e.outcome with
    | .ok => ([], [⟨.debug, "mkdir " ++ filename e⟩])
    | .fileExists =>
        ([], [⟨.debug, "mkdir " ++ filename e⟩, ⟨.warning, filename e ++ " exists"⟩])
    | .fileNotFound =>
        ([], [⟨.debug, "mkdir " ++ filename e⟩,
              ⟨.error, filename e ++ " was moved after being monitored"⟩])
    | o =>
        ([], [⟨.debug, "mkdir " ++ filename e⟩,
              ⟨.error, "unable to handle " ++ outcomeName o⟩])
  else
    match e.outcome with
    | .ok => ([], [⟨.debug, "mv " ++ filename e⟩])
    | .permissionError =>
        ([e], [⟨.debug, "mv " ++ filename e⟩,
               ⟨.error, filename e ++ " blocked, please extend timeout"⟩])
    | .fileNotFound =>
        ([], [⟨.debug, "mv " ++ filename e⟩,
              ⟨.error, filename e ++ " was moved after being monitored"⟩])
    | o =>
        ([], [⟨.debug, "mv " ++ filename e⟩,
              ⟨.error, "unable to handle " ++ outcomeName o⟩])

/-- State of the mover loop: the shared queue (`Worker._mq`, FIFO with
the head the oldest element), the two `threading.Event` flags
(`_flush_queue_event`, `_stop_mover_event`), the configured threshold
(`Worker._threshold`, a Python int that is `-1` before configuration),
plus a trace of the events processed so far and the log. -/
structure MoverState where
  queue : List Event
  flush : Bool
  stop : Bool
  threshold : Int
  processed : List Event
  logs : List LogEntry
  deriving DecidableEq, Repr

/-- Batch size computed at the top of a `Worker._mover` iteration
(worker.py lines 199-205): `n_events = qsize - threshold` when
`qsize > threshold`, overridden to the whole queue size when the flush
flag is set. -/
def nEvents (s : MoverState) : Int :=
  let n : Int :=
    if s.threshold < (s.queue.length : Int) then (s.queue.length : Int) - s.threshold
    else 0
  if s.flush then (s.queue.length : Int) else n

/-- The events popped for this iteration (worker.py line 206); the pops
are FIFO, so the batch is a front segment of the queue. -/
def moverBatch (s : MoverState) : List Event :=
  s.queue.take (nEvents s).toNat

/-- Process a popped batch in order; `PermissionError` re-enqueues go
to the tail of the queue (`self._mq.put(event)`). -/
def processBatch (events : List Event) (s : MoverState) : MoverState :=
  match events with
  | [] => s
  | e :: rest =>
      let r := processEvent e
      processBatch rest
        { s with queue := s.queue ++ r.1,
                 processed := s.processed ++ [e],
                 logs := s.logs ++ r.2 }

/-- One iteration of the `while True` loop of `Worker._mover`
(worker.py lines 199-241): compute the batch size, pop the batch,
test-and-clear the flush flag when there are events or the flag is
set (line 208-213, which also pets the watchdog), then process the
batch.  The timestamp reset of `_pet_watchdog` is modelled in the
watchdog section by `petWatchdog`. -/
def moverIter (s : MoverState) : MoverState :=
  let batch := moverBatch s
  let s1 : MoverState := { s with queue := s.queue.drop (nEvents s).toNat }
  let s2 : MoverState := if batch ≠ [] ∨ s1.flush then { s1 with flush := false } else s1
  processBatch batch s2

/-- The `Worker._mover` main loop (worker.py lines 198-246): iterate
until the stop event is set and the queue is observed empty at the end
of an iteration; `none` when `fuel` iterations do not suffice (the
Python loop simply keeps running). -/
def moverRun : Nat → MoverState → Option MoverState
  | 0, _ => none
  | fuel + 1, s =>
      let s2 := moverIter s
      if s2.stop = true ∧ s2.queue = [] then some s2 else moverRun fuel s2

/-- `Worker.stop` lines 166-169: set the flush and stop events, then
join the mover, i.e. run its loop to completion. -/
def stopMoverJoin (fuel : Nat) (s : MoverState) : Option MoverState :=
  moverRun fuel { s with flush := true, stop := true }

/-- State of the watchdog loop: the activity timestamp `Worker._t0`,
the configured `Worker._timeout`, and the shared flush flag
(`Worker._flush_queue_event`).  Timestamps are modelled as integers. -/
structure WatchdogState where
  t0 : Int
  timeout : Int
  flush : Bool
  deriving DecidableEq, Repr

/-- One tick of the `Worker._watchdog` loop body (worker.py lines
265-268): `dt = time.time() - self._t0`; when `timeout > 0 and
dt > timeout` the flush flag is set.  Nothing else changes. -/
def watchdogTick (w : WatchdogState) (now : Int) : WatchdogState :=
  if 0 < w.timeout ∧ w.timeout < now - w.t0 then { w with flush := true } else w

/-- `Worker._pet_watchdog` (worker.py lines 271-272): reset the
activity timestamp to the current time. -/
def petWatchdog (w : WatchdogState) (now : Int) : WatchdogState :=
  { w with t0 := now }

/-- Message of the assertion in the `threshold` setter
(worker.py line 76). -/
def thresholdSetMsg : String := "backlog threshold should >= 0"

/-- The `threshold` setter (worker.py lines 73-77): guarded by
`assert threshold > 0, "backlog threshold should >= 0"`; an
`AssertionError` is modelled as `Except.error` with the assertion
message. -/
def setThreshold (t : Int) : Except String Int :=
  if 0 < t then Except.ok t else Except.error thresholdSetMsg

/-! Lifecycle model: Python `threading.Thread` objects are created once
in `Worker.__init__` and never recreated. -/

inductive ThreadState where
  | unstarted
  | running
  | finished
  deriving DecidableEq, Repr

/-- `threading.Thread.start`: `RuntimeError` unless the thread was
never started before. -/
def threadStart : ThreadState → Except String ThreadState
  | .unstarted => .ok .running
  | _ => .error "threads can only be started once"

/-- `threading.Thread.join`: `RuntimeError` when the thread was never
started; otherwise it waits until the thread terminates (the worker
sets the relevant stop signals before each join, so the join
returns). -/
def threadJoin : ThreadState → Except String ThreadState
  | .unstarted => .error "cannot join thread before it is started"
  | _ => .ok .finished

def threadAlive : ThreadState → Bool
  | .running => true
  | _ => false

/-- Lifecycle state of a `Worker`: configuration fields, the three
background threads (`_observer`, `_mover`, `_watchdog`) and the three
`threading.Event` flags. -/
structure WorkerLife where
  src : Option String
  dst : Option String
  threshold : Int
  timeout : Int
  observer : ThreadState
  mover : ThreadState
  watchdog : ThreadState
  flushEvent : Bool
  stopMoverEvent : Bool
  killWatchdogEvent : Bool
  deriving DecidableEq, Repr

/-- `Worker.__init__` (worker.py lines 50-65). -/
def workerInit : WorkerLife :=
  { src := none, dst := none, threshold := -1, timeout := 0,
    observer := .unstarted, mover := .unstarted, watchdog := .unstarted,
    flushEvent := false, stopMoverEvent := false, killWatchdogEvent := false }

/-- `Worker.is_running` (worker.py lines 109-111):
`self._mover.is_alive()`. -/
def workerIsRunning (w : WorkerLife) : Bool := threadAlive w.mover

/-- `Worker.stop` (worker.py lines 155-169): set the kill event and
join the watchdog; stop and join the observer; set the flush and stop
events and join the mover.  The directory cleanup of lines 171-192 is
modelled separately by `cleanupRmDirs` (the lifecycle state carries no
filesystem tree). -/
def workerStop (w : WorkerLife) : Except String WorkerLife :=
  match threadJoin w.watchdog with
  | .error e => .error e
  | .ok wd =>
    match threadJoin w.observer with
    | .error e => .error e
    | .ok ob =>
      match threadJoin w.mover with
      | .error e => .error e
      | .ok mv =>
          .ok { w with watchdog := wd, observer := ob, mover := mv,
                       killWatchdogEvent := true, flushEvent := true,
                       stopMoverEvent := true }

/-- `Worker.start` (worker.py lines 119-153): the three leading
asserts, then (after the initial-sync scan, modelled separately by
`initialSync`) start the observer, clear the mover events and start
the mover, clear the kill event and start the watchdog.  The thread
fields are the ones from `__init__`: nothing recreates them. -/
def workerStart (w : WorkerLife) : Except String WorkerLife :=
  if w.src = none then Except.error "src dir not specified"
  else if w.dst = none then Except.error "dst dir not specified"
  else if w.threshold < 0 then Except.error "backlog threshold not specified"
  else
    match threadStart w.observer with
    | .error e => .error e
    | .ok ob =>
      match threadStart w.mover with
      | .error e => .error e
      | .ok mv =>
        match threadStart w.watchdog with
        | .error e => .error e
        | .ok wd =>
            .ok { w with observer := ob, mover := mv, watchdog := wd,
                         flushEvent := false, stopMoverEvent := false,
                         killWatchdogEvent := false }

/-- `property_guard` (worker.py lines 25-38) applied to the `src`
setter: when the loop is running, stop it first; `resume` is
initialised to `False` and never changed, so the loop is never
restarted afterwards. -/
def guardedSetSrc (w : WorkerLife) (p : String) : Except String WorkerLife :=
  if workerIsRunning w then
    match workerStop w with
    | .ok w2 => .ok { w2 with src := some p }
    | .error e => .error e
  else .ok { w with src := some p }

/-- The thread/flag state `workerStop` produces on success. -/
def stoppedLife (w : WorkerLife) : WorkerLife :=
  { w with watchdog := .finished, observer := .finished, mover := .finished,
           killWatchdogEvent := true, flushEvent := true,
           stopMoverEvent := true }

/-! Filesystem tree model, for the initial-sync scan of `Worker.start`
and the empty-directory cleanup of `Worker.stop`. -/

mutual
/-- A directory entry of the source tree: a file, or a directory with
its own entries. -/
inductive FsEntry where
  | file (name : String)
  | dir (name : String) (entries : FsTree)
/-- The entry list of one directory, in `os.scandir` order (a separate
mutual type keeps every recursion below structural and computable). -/
inductive FsTree where
  | nil
  | cons (e : FsEntry) (rest : FsTree)
end

def FsTree.toList : FsTree → List FsEntry
  | .nil => []
  | .cons e rest => e :: rest.toList

def FsTree.ofList : List FsEntry → FsTree
  | [] => .nil
  | e :: rest => .cons e (FsTree.ofList rest)

def entryName : FsEntry → String
  | .file n => n
  | .dir n _ => n

/-- `entry.is_dir()`. -/
def entryIsDir : FsEntry → Bool
  | .file _ => false
  | .dir _ _ => true

/-- The subdirectories of a scanned directory, with their paths, in
entry order: these are what the scan loops append to `scan_queue`. -/
def childDirs (p : List String) (t : FsTree) : List (List String × FsTree) :=
  t.toList.filterMap fun e =>
    match e with
    | .dir n t2 => some (p ++ [n], t2)
    | .file _ => none

mutual
/-- Number of directories in one entry, recursively. -/
def dirCountE : FsEntry → Nat
  | .file _ => 0
  | .dir _ t => 1 + dirCountT t
/-- Number of directories in an entry list, recursively. -/
def dirCountT : FsTree → Nat
  | .nil => 0
  | .cons e rest => dirCountE e + dirCountT rest
end

/-- Exact number of `while scan_queue` iterations a breadth-first scan
performs from a given queue: one per queued directory, present or
future. -/
def scanMeasure (q : List (List String × FsTree)) : Nat :=
  q.length + (q.map fun x => dirCountT x.2).sum

/-- The initial-sync scan loop of `Worker.start` (worker.py lines
127-140): `scan_queue` is popped at the front and subdirectories are
appended at the back, so the traversal is breadth first; one creation
event `(path, is_dir)` is emitted per entry, in `os.scandir` order. -/
def scanBFS : Nat → List (List String × FsTree) → List (List String × Bool)
  | 0, _ => []
  | _ + 1, [] => []
  | fuel + 1, (p, t) :: rest =>
      (t.toList.map fun e => (p ++ [entryName e], entryIsDir e)) ++
        scanBFS fuel (rest ++ childDirs p t)

/-- Initial Sync: the events `Worker.start` enqueues for a source tree
whose root holds the entries `t`, before the observer starts. -/
def initialSync (t : FsTree) : List (List String × Bool) :=
  scanBFS (scanMeasure [([], t)]) [([], t)]

mutual
/-- Modelled from the spec (section 4.4): the depth-first,
parents-before-children synthesis order the spec describes for
Initial Sync (one entry), for comparison with `initialSync`. -/
def depthFirstEventsE (p : List String) : FsEntry → List (List String × Bool)
  | .file n => [(p ++ [n], false)]
  | .dir n t => (p ++ [n], true) :: depthFirstEventsT (p ++ [n]) t
/-- Modelled from the spec (section 4.4): depth-first synthesis order
over an entry list. -/
def depthFirstEventsT (p : List String) : FsTree → List (List String × Bool)
  | .nil => []
  | .cons e rest => depthFirstEventsE p e ++ depthFirstEventsT p rest
end

/-- All events of a scan queue, element by element, in depth-first
order (the reference multiset for the breadth-first scan). -/
def queueEvents : List (List String × FsTree) → List (List String × Bool)
  | [] => []
  | (p, t) :: rest => depthFirstEventsT p t ++ queueEvents rest

/-- `q` is strictly below `p` in the tree. -/
def pathBelow (p q : List String) : Prop := ∃ r, r ≠ [] ∧ q = p ++ r

/-- The cleanup scan of `Worker.stop` (worker.py lines 173-188):
breadth-first over the source tree; a directory with no direct file
entry is appended to `rm_queue`, one with a direct file is reported
with an error log.  Returns `(rm_queue, error_dirs)` in discovery
order. -/
def cleanupScan : Nat → List (List String × FsTree) →
    List (List String) × List (List String)
  | 0, _ => ([], [])
  | _ + 1, [] => ([], [])
  | fuel + 1, (p, t) :: rest =>
      let next := cleanupScan fuel (rest ++ childDirs p t)
      if t.toList.all entryIsDir then (p :: next.1, next.2) else (next.1, p :: next.2)

def cleanupLists (t : FsTree) : List (List String) × List (List String) :=
  cleanupScan (scanMeasure [([], t)]) [([], t)]

/-- The directories `Worker.stop` actually removes (worker.py lines
189-192): `reversed(rm_queue[1:])` — everything collected except the
first element, deepest first. -/
def cleanupRmDirs (t : FsTree) : List (List String) :=
  ((cleanupLists t).1.drop 1).reverse

/-! Basic lemmas about batch processing and the mover loop. -/

theorem processBatch_processed (events : List Event) (s : MoverState) :
    (processBatch events s).processed = s.processed ++ events := by
  induction events generalizing s with
  | nil => simp [processBatch]
  | cons e rest ih => simp [processBatch, ih]

theorem processBatch_stop (events : List Event) (s : MoverState) :
    (processBatch events s).stop = s.stop := by
  induction events generalizing s with
  | nil => rfl
  | cons e rest ih => simp [processBatch, ih]

theorem processBatch_flush (events : List Event) (s : MoverState) :
    (processBatch events s).flush = s.flush := by
  induction events generalizing s with
  | nil => rfl
  | cons e rest ih => simp [processBatch, ih]

theorem processEvent_no_requeue (e : Event)
    (h : e.is_directory = true ∨ e.outcome ≠ Outcome.permissionError) :
    (processEvent e).1 = [] := by
  rcases h with h | h
  · simp only [processEvent, h, if_pos]
    cases e.outcome <;> rfl
  · cases hd : e.is_directory
    · simp only [processEvent, hd]
      cases ho : e.outcome <;> simp_all
    · simp only [processEvent, hd, if_pos]
      cases e.outcome <;> rfl

theorem processBatch_queue_no_requeue (events : List Event) (s : MoverState)
    (h : ∀ e ∈ events, e.is_directory = true ∨ e.outcome ≠ Outcome.permissionError) :
    (processBatch events s).queue = s.queue := by
  induction events generalizing s with
  | nil => rfl
  | cons e rest ih =>
      have he := processEvent_no_requeue e (h e (by simp))
      simp [processBatch, he, ih _ (fun x hx => h x (by simp [hx]))]

theorem moverIter_stop (s : MoverState) : (moverIter s).stop = s.stop := by
  unfold moverIter
  dsimp only
  split <;> simp [processBatch_stop]

theorem moverRun_some_inv :
    ∀ (fuel : Nat) (s sf : MoverState), moverRun fuel s = some sf →
      sf.queue = [] ∧ sf.stop = true ∧ s.stop = true
  | 0, _, _, h => by simp [moverRun] at h
  | fuel + 1, s, sf, h => by
      rw [moverRun] at h
      split at h
      · rename_i hcond
        cases h
        exact ⟨hcond.2, hcond.1, (moverIter_stop s) ▸ hcond.1⟩
      · have ih := moverRun_some_inv fuel (moverIter s) sf h
        exact ⟨ih.1, ih.2.1, (moverIter_stop s) ▸ ih.2.2⟩

theorem moverIter_flush_drain (s : MoverState) (hf : s.flush = true)
    (hq : ∀ e ∈ s.queue, e.is_directory = true ∨ e.outcome ≠ Outcome.permissionError) :
    (moverIter s).queue = [] ∧ (moverIter s).processed = s.processed ++ s.queue
      ∧ (moverIter s).stop = s.stop := by
  have hn : (nEvents s).toNat = s.queue.length := by simp [nEvents, hf]
  unfold moverIter
  dsimp only
  rw [moverBatch, hn, List.take_length, List.drop_length]
  rw [if_pos (Or.inr (by simp [hf]))]
  refine ⟨?_, ?_, ?_⟩
  · exact processBatch_queue_no_requeue _ _ hq
  · simp [processBatch_processed]
  · simp [processBatch_stop]

/-- C1: in every mover iteration the batch size is
`max 0 (queue.size - threshold)`, overridden to the full queue size
when the flush flag is set, and the flag is test-and-cleared upon
observation; the batch is a front segment of the queue (FIFO) and is
processed entirely within the iteration; in particular, when the queue
holds more than `threshold` events and no flush is pending, exactly
`size - threshold` (hence at least that many) events are popped. -/
theorem C1_iteration_pop_count (s : MoverState) (h : 0 ≤ s.threshold) :
    nEvents s = (if s.flush then (s.queue.length : Int)
                 else max 0 ((s.queue.length : Int) - s.threshold))
    ∧ moverBatch s = s.queue.take (nEvents s).toNat
    ∧ (s.flush = true → (moverIter s).flush = false)
    ∧ (moverIter s).processed = s.processed ++ moverBatch s
    ∧ (s.flush = false → s.threshold < (s.queue.length : Int) →
        ((moverBatch s).length : Int) = (s.queue.length : Int) - s.threshold) := by
  refine ⟨?_, rfl, ?_, ?_, ?_⟩
  · cases hf : s.flush
    · simp only [nEvents, hf, if_false, Bool.false_eq_true]
      split
      · rename_i h1
        rw [max_eq_right (by omega)]
      · rename_i h1
        rw [max_eq_left (by omega)]
    · simp [nEvents, hf]
  · intro hf
    unfold moverIter
    dsimp only
    rw [if_pos (Or.inr (by simp [hf]))]
    simp [processBatch_flush]
  · unfold moverIter
    dsimp only
    split <;> simp [processBatch_processed, moverBatch]
  · intro hf hlt
    have h1 : nEvents s = (s.queue.length : Int) - s.threshold := by
      simp [nEvents, hf, hlt]
    rw [moverBatch, List.length_take, h1]
    have ht : ((s.queue.length : Int) - s.threshold).toNat ≤ s.queue.length := by omega
    rw [min_eq_left ht]
    omega

theorem C1_iteration_pop_count_witness :
    (0 : Int) ≤ 0
    ∧ (moverIter ⟨[⟨["a"], false, Outcome.ok⟩], false, false, 0, [], []⟩).processed =
        [] ++ moverBatch ⟨[⟨["a"], false, Outcome.ok⟩], false, false, 0, [], []⟩ :=
  ⟨by decide,
   (C1_iteration_pop_count ⟨[⟨["a"], false, Outcome.ok⟩], false, false, 0, [], []⟩
      (by decide)).2.2.2.1⟩

/-- C2 counterexample: the claim says the mover loop terminates only
after observing a distinguished sentinel event in the queue.  In the
code there is no sentinel: `Event` (faithful to worker.py, which puts
only watchdog filesystem events in `_mq`) has no sentinel value, and
the run below — `stop()` setting the flush and stop `threading.Event`
flags on a mover whose queue never held any event — terminates with an
empty `processed` trace, i.e. without ever observing any queue entry,
let alone a sentinel. -/
theorem C2_no_sentinel_counterexample :
    stopMoverJoin 1 ⟨[], false, false, 0, [], []⟩ = some ⟨[], false, true, 0, [], []⟩ := by
  decide

/-- C2 amended: the mover loop terminates only via the
`_stop_mover_event` flag: whenever the loop exits, the stop flag was
set and the queue was observed empty at the end of the final iteration
(all events queued before the stop signal were drained).  The
termination signal is the stop flag set by `Worker.stop` (together
with the flush flag), not a sentinel event in the queue. -/
theorem C2_amended_stop_flag_termination (fuel : Nat) (s sf : MoverState)
    (h : moverRun fuel s = some sf) :
    s.stop = true ∧ sf.queue = [] := by
  have h2 := moverRun_some_inv fuel s sf h
  exact ⟨h2.2.2, h2.1⟩

theorem C2_amended_stop_flag_termination_witness :
    moverRun 1 ⟨[], true, true, 0, [], []⟩ = some ⟨[], false, true, 0, [], []⟩
    ∧ ((⟨[], true, true, 0, [], []⟩ : MoverState).stop = true
        ∧ (⟨[], false, true, 0, [], []⟩ : MoverState).queue = []) :=
  ⟨by decide, C2_amended_stop_flag_termination 1 _ _ (by decide)⟩

/-- C3: whenever the mover join triggered by `Worker.stop` returns,
the queue is empty and the mover has exited; and when no queued event
hits a `PermissionError` on a file move, the forced flush drains and
processes every event enqueued before the stop signal in a single
final iteration, so the join does return. -/
theorem C3_stop_drains_queue :
    (∀ (fuel : Nat) (s sf : MoverState),
        stopMoverJoin fuel s = some sf → sf.queue = [] ∧ sf.stop = true)
    ∧ (∀ s : MoverState,
        (∀ e ∈ s.queue, e.is_directory = true ∨ e.outcome ≠ Outcome.permissionError) →
        ∃ sf, stopMoverJoin 1 s = some sf
          ∧ sf.queue = [] ∧ sf.processed = s.processed ++ s.queue) := by
  constructor
  · intro fuel s sf h
    have h2 := moverRun_some_inv fuel _ sf h
    exact ⟨h2.1, h2.2.1⟩
  · intro s hq
    have h1 := moverIter_flush_drain { s with flush := true, stop := true } rfl hq
    refine ⟨moverIter { s with flush := true, stop := true }, ?_, h1.1, h1.2.1⟩
    unfold stopMoverJoin moverRun
    rw [if_pos ⟨h1.2.2, h1.1⟩]

theorem C3_stop_drains_queue_witness :
    ∃ sf, stopMoverJoin 1 ⟨[⟨["a"], false, Outcome.ok⟩], false, false, 5, [], []⟩ = some sf
      ∧ sf.queue = [] ∧ sf.processed = [] ++ [⟨["a"], false, Outcome.ok⟩] :=
  C3_stop_drains_queue.2 ⟨[⟨["a"], false, Outcome.ok⟩], false, false, 5, [], []⟩ (by decide)

/-- C4: per-event errors never terminate the mover loop — every popped
event of a batch is processed; a `FileExistsError` while creating a
destination directory is only a warning; a source file not found at
move time is logged and the event dropped (not re-enqueued); a
`PermissionError` during a file move is logged and the event
re-enqueued at the tail of the queue; any other exception is caught
and logged and processing continues. -/
theorem C4_per_event_error_handling :
    (∀ (events : List Event) (s : MoverState),
        (processBatch events s).processed = s.processed ++ events)
    ∧ (∀ e : Event, e.is_directory = true → e.outcome = Outcome.fileExists →
        (processEvent e).1 = []
          ∧ (⟨LogLevel.warning, filename e ++ " exists"⟩ : LogEntry) ∈ (processEvent e).2)
    ∧ (∀ e : Event, e.outcome = Outcome.fileNotFound →
        (processEvent e).1 = []
          ∧ (⟨LogLevel.error, filename e ++ " was moved after being monitored"⟩ : LogEntry)
              ∈ (processEvent e).2)
    ∧ (∀ (e : Event) (s : MoverState), e.is_directory = false →
        e.outcome = Outcome.permissionError →
        (processBatch [e] s).queue = s.queue ++ [e]
          ∧ (⟨LogLevel.error, filename e ++ " blocked, please extend timeout"⟩ : LogEntry)
              ∈ (processEvent e).2)
    ∧ (∀ e : Event, e.outcome = Outcome.otherError →
        (processEvent e).1 = []
          ∧ (⟨LogLevel.error, "unable to handle Exception"⟩ : LogEntry)
              ∈ (processEvent e).2) := by
  refine ⟨processBatch_processed, ?_, ?_, ?_, ?_⟩
  · intro e hd ho
    simp [processEvent, hd, ho]
  · intro e ho
    cases hd : e.is_directory <;> simp [processEvent, hd, ho]
  · intro e s hd ho
    simp [processBatch, processEvent, hd, ho]
  · intro e ho
    cases hd : e.is_directory <;> simp [processEvent, hd, ho, outcomeName]

theorem C4_per_event_error_handling_witness :
    (processBatch [⟨["f"], false, Outcome.permissionError⟩] ⟨[], false, false, 0, [], []⟩).queue
        = [] ++ [⟨["f"], false, Outcome.permissionError⟩]
    ∧ (⟨LogLevel.error,
          filename ⟨["f"], false, Outcome.permissionError⟩ ++ " blocked, please extend timeout"⟩
        : LogEntry) ∈ (processEvent ⟨["f"], false, Outcome.permissionError⟩).2 :=
  C4_per_event_error_handling.2.2.2.1 ⟨["f"], false, Outcome.permissionError⟩
    ⟨[], false, false, 0, [], []⟩ rfl rfl

/-- C6 counterexample: the claim says a firing watchdog tick resets the
activity timestamp to the current time.  With `t0 = 0`, `timeout = 1`,
a tick at time 5 fires (sets the flush flag) but leaves `t0 = 0`
instead of 5; consequently, even after the mover clears the flag, the
very next tick at time 6 — well inside the claimed fresh idle period —
fires again. -/
theorem C6_no_timestamp_reset_counterexample :
    (watchdogTick ⟨0, 1, false⟩ 5).flush = true
    ∧ ¬ (watchdogTick ⟨0, 1, false⟩ 5).t0 = 5
    ∧ (watchdogTick { watchdogTick ⟨0, 1, false⟩ 5 with flush := false } 6).flush = true := by
  decide

/-- C6 amended: on each tick where `timeout > 0` and the elapsed time
since the last activity exceeds `timeout`, the watchdog sets the flush
flag and leaves the activity timestamp unchanged; the timestamp is
reset only by `_pet_watchdog` (called from the mover), so the watchdog
fires again on every later tick until the mover pets it, and right
after a pet a tick does not fire. -/
theorem C6_amended_watchdog_no_reset (w : WatchdogState) (now now2 : Int)
    (h1 : 0 < w.timeout) (h2 : w.timeout < now - w.t0) (h3 : now ≤ now2) :
    watchdogTick w now = { w with flush := true }
    ∧ (watchdogTick w now).t0 = w.t0
    ∧ (watchdogTick { watchdogTick w now with flush := false } now2).flush = true
    ∧ (watchdogTick (petWatchdog w now2) now2).flush = w.flush := by
  have ha : watchdogTick w now = { w with flush := true } := by
    unfold watchdogTick
    rw [if_pos ⟨h1, h2⟩]
  refine ⟨ha, by rw [ha], ?_, ?_⟩
  · rw [ha]
    unfold watchdogTick
    rw [if_pos ⟨h1, by dsimp only; omega⟩]
  · unfold petWatchdog watchdogTick
    rw [if_neg (by dsimp only; omega)]

theorem C6_amended_watchdog_no_reset_witness :
    watchdogTick ⟨0, 1, false⟩ 5 = { (⟨0, 1, false⟩ : WatchdogState) with flush := true }
    ∧ (watchdogTick ⟨0, 1, false⟩ 5).t0 = (⟨0, 1, false⟩ : WatchdogState).t0
    ∧ (watchdogTick { watchdogTick ⟨0, 1, false⟩ 5 with flush := false } 6).flush = true
    ∧ (watchdogTick (petWatchdog ⟨0, 1, false⟩ 6) 6).flush
        = (⟨0, 1, false⟩ : WatchdogState).flush :=
  C6_amended_watchdog_no_reset ⟨0, 1, false⟩ 5 6 (by decide) (by decide) (by decide)

/-- C7 (code bug): the claim — and the assertion message of the
setter itself, `backlog threshold should >= 0` — promise that every
non-negative threshold including 0 is accepted, but the assert tests
`threshold > 0`, so setting 0 raises an `AssertionError`.  The second
conjunct shows the claimed behaviour at threshold 0 holds in the mover
itself: with no flush pending it drains the entire queue whenever the
queue is non-empty. -/
theorem C7_threshold_zero_rejected :
    setThreshold 0 = Except.error "backlog threshold should >= 0"
    ∧ (∀ q : List Event, nEvents ⟨q, false, false, 0, [], []⟩ = (q.length : Int)) := by
  constructor
  · rfl
  · intro q
    have h0 : nEvents ⟨q, false, false, 0, [], []⟩ =
        if (0 : Int) < (q.length : Int) then (q.length : Int) - 0 else 0 := rfl
    rw [h0]
    split <;> omega

/-- C8 counterexample: `stop()` on a `Worker` that was never started
raises `RuntimeError` — the first statement joins the watchdog thread,
and `threading.Thread.join` refuses to join a thread that was never
started. -/
theorem C8_stop_never_started_raises :
    workerStop workerInit = Except.error "cannot join thread before it is started" := rfl

/-- C8 amended: once the worker has been started, `stop()` does not
raise: all three joins return, the worker ends in the stopped
thread/flag state, and a second consecutive `stop()` succeeds and
leaves that state unchanged (a no-op).  On a `Worker` that was never
started, however, `stop()` raises `RuntimeError` from joining an
unstarted thread. -/
theorem C8_amended_stop_idempotent (w : WorkerLife)
    (h1 : w.watchdog ≠ ThreadState.unstarted)
    (h2 : w.observer ≠ ThreadState.unstarted)
    (h3 : w.mover ≠ ThreadState.unstarted) :
    workerStop w = Except.ok (stoppedLife w)
    ∧ workerStop (stoppedLife w) = Except.ok (stoppedLife w) := by
  have j1 : threadJoin w.watchdog = Except.ok ThreadState.finished := by
    cases hw : w.watchdog <;> simp_all [threadJoin]
  have j2 : threadJoin w.observer = Except.ok ThreadState.finished := by
    cases hw : w.observer <;> simp_all [threadJoin]
  have j3 : threadJoin w.mover = Except.ok ThreadState.finished := by
    cases hw : w.mover <;> simp_all [threadJoin]
  constructor
  · simp only [workerStop, j1, j2, j3, stoppedLife]
  · rfl

theorem C8_amended_stop_idempotent_witness :
    workerStop ⟨some "s", some "d", 5, 0, .running, .running, .running, false, false, false⟩
      = Except.ok (stoppedLife
          ⟨some "s", some "d", 5, 0, .running, .running, .running, false, false, false⟩)
    ∧ workerStop (stoppedLife
          ⟨some "s", some "d", 5, 0, .running, .running, .running, false, false, false⟩)
      = Except.ok (stoppedLife
          ⟨some "s", some "d", 5, 0, .running, .running, .running, false, false, false⟩) :=
  C8_amended_stop_idempotent
    ⟨some "s", some "d", 5, 0, .running, .running, .running, false, false, false⟩
    (by decide) (by decide) (by decide)

theorem workerStop_ok (w w2 : WorkerLife) (h : workerStop w = Except.ok w2) :
    w2 = stoppedLife w := by
  cases hw : w.watchdog <;> cases ho : w.observer <;> cases hm : w.mover <;>
    simp_all [workerStop, threadJoin, stoppedLife]

/-- C9: a `Worker` is single-use — the threads are created once in
`__init__` and never recreated, so once the mover thread has been
started, every further `start()` raises a runtime error; and the
`resume` flag of `property_guard` is always `False`, so a guarded
setter invoked on a running worker stops all activities and never
restarts them: after a successful guarded set the worker is not
running. -/
theorem C9_single_use_worker :
    (∀ w : WorkerLife, w.mover ≠ ThreadState.unstarted →
        ∃ msg, workerStart w = Except.error msg)
    ∧ (∀ (w w2 : WorkerLife) (p : String),
        guardedSetSrc w p = Except.ok w2 → workerIsRunning w2 = false) := by
  constructor
  · intro w hm
    unfold workerStart
    split
    · exact ⟨_, rfl⟩
    split
    · exact ⟨_, rfl⟩
    split
    · exact ⟨_, rfl⟩
    cases ho : w.observer
    · cases hm2 : w.mover
      · exact absurd hm2 hm
      · exact ⟨"threads can only be started once", by simp [threadStart, ho, hm2]⟩
      · exact ⟨"threads can only be started once", by simp [threadStart, ho, hm2]⟩
    · exact ⟨"threads can only be started once", by simp [threadStart, ho]⟩
    · exact ⟨"threads can only be started once", by simp [threadStart, ho]⟩
  · intro w w2 p h
    unfold guardedSetSrc at h
    split at h
    · cases hst : workerStop w with
      | ok w3 =>
          rw [hst] at h
          have h4 := workerStop_ok w w3 hst
          cases h
          subst h4
          simp [workerIsRunning, stoppedLife, threadAlive]
      | error e =>
          rw [hst] at h
          cases h
    · rename_i hrun
      cases h
      simp only [workerIsRunning] at hrun ⊢
      cases hma : threadAlive w.mover
      · rfl
      · exact absurd hma hrun

theorem C9_single_use_worker_witness :
    (∃ msg, workerStart (stoppedLife
        ⟨some "s", some "d", 5, 0, .running, .running, .running, false, false, false⟩)
      = Except.error msg)
    ∧ workerIsRunning { stoppedLife
        ⟨some "s", some "d", 5, 0, .running, .running, .running, false, false, false⟩
          with src := some "q" } = false :=
  ⟨C9_single_use_worker.1 _ (by decide),
   C9_single_use_worker.2
     ⟨some "s", some "d", 5, 0, .running, .running, .running, false, false, false⟩
     _ "q" (by rfl)⟩

/-! Lemmas about the breadth-first scans over the source tree. -/

theorem childDirs_cons_file (p : List String) (n : String) (rest : FsTree) :
    childDirs p (.cons (.file n) rest) = childDirs p rest := rfl

theorem childDirs_cons_dir (p : List String) (n : String) (t2 : FsTree) (rest : FsTree) :
    childDirs p (.cons (.dir n t2) rest) = (p ++ [n], t2) :: childDirs p rest := rfl

theorem queueEvents_append (a b : List (List String × FsTree)) :
    queueEvents (a ++ b) = queueEvents a ++ queueEvents b := by
  induction a with
  | nil => rfl
  | cons x rest ih =>
      obtain ⟨p, t⟩ := x
      simp [queueEvents, ih]

theorem childDirs_measure :
    ∀ (p : List String) (t : FsTree),
      (childDirs p t).length + ((childDirs p t).map fun x => dirCountT x.2).sum
        = dirCountT t
  | _, .nil => rfl
  | p, .cons (.file n) rest => by
      have ih := childDirs_measure p rest
      simpa [childDirs_cons_file, dirCountT, dirCountE] using ih
  | p, .cons (.dir n t2) rest => by
      have ih := childDirs_measure p rest
      simp only [childDirs_cons_dir, dirCountT, dirCountE, List.length_cons,
                 List.map_cons, List.sum_cons]
      omega

theorem scanMeasure_step (p : List String) (t : FsTree)
    (rest : List (List String × FsTree)) :
    scanMeasure (rest ++ childDirs p t) + 1 = scanMeasure ((p, t) :: rest) := by
  simp only [scanMeasure, List.length_append, List.map_append, List.sum_append,
             List.length_cons, List.map_cons, List.sum_cons]
  have h := childDirs_measure p t
  omega

theorem entryName_file (n : String) : entryName (.file n) = n := rfl

theorem entryName_dir (n : String) (t : FsTree) : entryName (.dir n t) = n := rfl

theorem entryIsDir_file (n : String) : entryIsDir (.file n) = false := rfl

theorem entryIsDir_dir (n : String) (t : FsTree) : entryIsDir (.dir n t) = true := rfl

theorem depthFirstEvents_split :
    ∀ (p : List String) (t : FsTree),
      List.Perm (depthFirstEventsT p t)
        ((t.toList.map fun e => (p ++ [entryName e], entryIsDir e)) ++
          queueEvents (childDirs p t))
  | p, .nil => by
      simp [depthFirstEventsT, FsTree.toList, childDirs, queueEvents]
  | p, .cons (.file n) rest => by
      have ih := depthFirstEvents_split p rest
      simp only [depthFirstEventsT, depthFirstEventsE, childDirs_cons_file,
                 FsTree.toList, List.map_cons, entryName_file, entryIsDir_file,
                 List.cons_append, List.singleton_append]
      exact List.Perm.cons _ ih
  | p, .cons (.dir n t2) rest => by
      have ih := depthFirstEvents_split p rest
      simp only [depthFirstEventsT, depthFirstEventsE, childDirs_cons_dir,
                 FsTree.toList, List.map_cons, entryName_dir, entryIsDir_dir,
                 queueEvents, List.cons_append]
      apply List.Perm.cons
      refine (List.Perm.append_left _ ih).trans ?_
      rw [← List.append_assoc, ← List.append_assoc]
      exact List.Perm.append_right _ List.perm_append_comm

theorem scanBFS_perm :
    ∀ (fuel : Nat) (q : List (List String × FsTree)),
      scanMeasure q ≤ fuel → List.Perm (scanBFS fuel q) (queueEvents q) := by
  intro fuel
  induction fuel with
  | zero =>
      intro q h
      rcases q with _ | ⟨⟨p, t⟩, rest⟩
      · simp [scanBFS, queueEvents]
      · simp [scanMeasure] at h
  | succ fuel ih =>
      intro q h
      rcases q with _ | ⟨⟨p, t⟩, rest⟩
      · simp [scanBFS, queueEvents]
      · have hstep := scanMeasure_step p t rest
        have hm : scanMeasure (rest ++ childDirs p t) ≤ fuel := by omega
        have ihp := ih (rest ++ childDirs p t) hm
        rw [queueEvents_append] at ihp
        simp only [scanBFS, queueEvents]
        refine (List.Perm.append_left _ ihp).trans ?_
        refine (List.Perm.append_left _ List.perm_append_comm).trans ?_
        rw [← List.append_assoc]
        exact List.Perm.append_right _ (depthFirstEvents_split p t).symm

theorem pairwise_of_forall {α : Type} {R : α → α → Prop} :
    ∀ (l : List α), (∀ a ∈ l, ∀ b ∈ l, R a b) → List.Pairwise R l
  | [], _ => List.Pairwise.nil
  | a :: l, h =>
      List.Pairwise.cons (fun b hb => h a (by simp) b (by simp [hb]))
        (pairwise_of_forall l fun x hx y hy => h x (by simp [hx]) y (by simp [hy]))

theorem childDirs_len (p : List String) (t : FsTree) :
    ∀ x ∈ childDirs p t, x.1.length = p.length + 1 := by
  intro x hx
  rcases List.mem_filterMap.mp hx with ⟨e, _, hmatch⟩
  cases e with
  | file n => cases hmatch
  | dir n t2 =>
      cases hmatch
      simp

theorem scanBFS_len_lower :
    ∀ (fuel : Nat) (q : List (List String × FsTree)) (m : Nat),
      (∀ x ∈ q, m ≤ x.1.length) → ∀ ev ∈ scanBFS fuel q, m + 1 ≤ ev.1.length := by
  intro fuel
  induction fuel with
  | zero => intro q m _ ev hev; simp [scanBFS] at hev
  | succ fuel ih =>
      intro q m hq ev hev
      rcases q with _ | ⟨⟨p, t⟩, rest⟩
      · simp [scanBFS] at hev
      · simp only [scanBFS] at hev
        have hp : m ≤ p.length := by simpa using hq (p, t) (by simp)
        rcases List.mem_append.mp hev with h1 | h1
        · rcases List.mem_map.mp h1 with ⟨e, _, rfl⟩
          simp
          omega
        · refine ih (rest ++ childDirs p t) m ?_ ev h1
          intro x hx
          rcases List.mem_append.mp hx with h2 | h2
          · exact hq x (by simp [h2])
          · have h3 := childDirs_len p t x h2
            omega

theorem scanBFS_len_sorted :
    ∀ (fuel : Nat) (q : List (List String × FsTree)),
      List.Pairwise (fun a b => a.1.length ≤ b.1.length) q →
      (∀ a ∈ q, ∀ b ∈ q, b.1.length ≤ a.1.length + 1) →
      List.Pairwise (fun (a b : List String × Bool) => a.1.length ≤ b.1.length)
        (scanBFS fuel q) := by
  intro fuel
  induction fuel with
  | zero => intro q _ _; simp [scanBFS]
  | succ fuel ih =>
      intro q hsort hbound
      rcases q with _ | ⟨⟨p, t⟩, rest⟩
      · simp [scanBFS]
      · have hhead : ∀ x ∈ rest, p.length ≤ x.1.length := by
          intro x hx
          simpa using (List.pairwise_cons.mp hsort).1 x hx
        have hrest : List.Pairwise (fun a b => a.1.length ≤ b.1.length) rest :=
          (List.pairwise_cons.mp hsort).2
        have hup : ∀ b ∈ rest, b.1.length ≤ p.length + 1 := by
          intro b hb
          simpa using hbound (p, t) (by simp) b (by simp [hb])
        simp only [scanBFS]
        apply List.pairwise_append.mpr
        refine ⟨?_, ?_, ?_⟩
        · apply pairwise_of_forall
          intro a ha b hb
          rcases List.mem_map.mp ha with ⟨e1, _, rfl⟩
          rcases List.mem_map.mp hb with ⟨e2, _, rfl⟩
          simp
        · apply ih
          · apply List.pairwise_append.mpr
            refine ⟨hrest, ?_, ?_⟩
            · apply pairwise_of_forall
              intro a ha b hb
              rw [childDirs_len p t a ha, childDirs_len p t b hb]
            · intro a ha b hb
              rw [childDirs_len p t b hb]
              exact hup a ha
          · intro a ha b hb
            have hal : p.length ≤ a.1.length := by
              rcases List.mem_append.mp ha with h2 | h2
              · exact hhead a h2
              · rw [childDirs_len p t a h2]; omega
            have hbl : b.1.length ≤ p.length + 1 := by
              rcases List.mem_append.mp hb with h2 | h2
              · exact hup b h2
              · rw [childDirs_len p t b h2]
            omega
        · intro a ha b hb
          rcases List.mem_map.mp ha with ⟨e1, _, rfl⟩
          have hb2 : p.length + 1 ≤ b.1.length := by
            refine scanBFS_len_lower fuel (rest ++ childDirs p t) p.length ?_ b hb
            intro x hx
            rcases List.mem_append.mp hx with h2 | h2
            · exact hhead x h2
            · rw [childDirs_len p t x h2]; omega
          simp
          omega

/-- C5 counterexample: the claim says Initial Sync enqueues events
depth-first.  For a source tree with two sibling directories each
holding one file, the scan of `Worker.start` (a FIFO `scan_queue`
popped at the front, i.e. breadth-first) emits both directory events
before either file event, which differs from the claimed depth-first
order. -/
theorem C5_depth_first_counterexample :
    initialSync (FsTree.ofList
        [.dir "a" (FsTree.ofList [.file "f1"]), .dir "b" (FsTree.ofList [.file "f2"])])
        = [(["a"], true), (["b"], true), (["a", "f1"], false), (["b", "f2"], false)]
    ∧ initialSync (FsTree.ofList
        [.dir "a" (FsTree.ofList [.file "f1"]), .dir "b" (FsTree.ofList [.file "f2"])])
        ≠ depthFirstEventsT [] (FsTree.ofList
            [.dir "a" (FsTree.ofList [.file "f1"]), .dir "b" (FsTree.ofList [.file "f2"])]) := by
  constructor
  · rfl
  · decide

/-- C5 amended: `start()` runs Initial Sync before the observer is
started: it synthesizes and enqueues one creation event for every
pre-existing file and directory of the source tree (the scan output is
a permutation of the depth-first listing), in breadth-first (level)
order — so each parent directory's event is enqueued before the events
of every entry beneath it — and if the source tree is entirely empty
it enqueues nothing. -/
theorem C5_amended_breadth_first_sync (t : FsTree) :
    List.Perm (initialSync t) (depthFirstEventsT [] t)
    ∧ List.Pairwise (fun (a b : List String × Bool) => a.1.length ≤ b.1.length)
        (initialSync t)
    ∧ List.Pairwise (fun (a b : List String × Bool) => ¬ pathBelow b.1 a.1)
        (initialSync t)
    ∧ (t = FsTree.nil → initialSync t = []) := by
  have hsorted :
      List.Pairwise (fun (a b : List String × Bool) => a.1.length ≤ b.1.length)
        (initialSync t) := by
    apply scanBFS_len_sorted
    · simp
    · intro a ha b hb
      simp at ha hb
      subst ha
      subst hb
      omega
  refine ⟨?_, hsorted, ?_, ?_⟩
  · have hp := scanBFS_perm (scanMeasure [([], t)]) [([], t)] le_rfl
    simpa [initialSync, queueEvents] using hp
  · refine hsorted.imp ?_
    rintro ⟨pa, ba⟩ ⟨pb, bb⟩ hab ⟨r, hr, hq⟩
    simp only at hab hq
    rw [hq, List.length_append] at hab
    have hrl : 0 < r.length := List.length_pos.mpr hr
    omega
  · intro h
    subst h
    rfl

theorem C5_amended_breadth_first_sync_witness :
    List.Perm (initialSync (FsTree.ofList [FsEntry.dir "a" (FsTree.ofList [FsEntry.file "f1"])]))
      (depthFirstEventsT [] (FsTree.ofList [FsEntry.dir "a" (FsTree.ofList [FsEntry.file "f1"])]))
    ∧ initialSync FsTree.nil = [] :=
  ⟨(C5_amended_breadth_first_sync
      (FsTree.ofList [FsEntry.dir "a" (FsTree.ofList [FsEntry.file "f1"])])).1,
   (C5_amended_breadth_first_sync FsTree.nil).2.2.2 rfl⟩

/-- C10 (code bug): for a source tree whose root holds the file `f`
and the empty subdirectory `a`, the cleanup of `Worker.stop` collects
`rm_queue = [a]` (the root, holding a direct file, is only logged with
an error — the second component), and then removes
`reversed(rm_queue[1:]) = []`: the file-free subdirectory `a` is never
deleted.  The slice `[1:]` presumes `rm_queue[0]` is the source root
(the code comment says `NOTE still keep the src dir`), which fails
whenever the root holds a direct file, contradicting both the claim
and the code's own comment. -/
theorem C10_cleanup_skips_empty_subdir :
    (cleanupLists (FsTree.ofList [.file "f", .dir "a" FsTree.nil])).1 = [["a"]]
    ∧ (cleanupLists (FsTree.ofList [.file "f", .dir "a" FsTree.nil])).2 = [[]]
    ∧ cleanupRmDirs (FsTree.ofList [.file "f", .dir "a" FsTree.nil]) = [] :=
  ⟨rfl, rfl, rfl⟩

end MoverWorker
